import Mathlib

/-!
Shallow embedding of `src/main/de/rwth/reversiai/experiments/TensorTest.c`.

The C file exposes three JNI entry points operating on four process-wide
globals (`int8_t *data; int32_t width, height, depth;`):

  * `initNativeFlatArray(w, h, d)`  — sets the extents and mallocs
    `width * height * depth` bytes (a 32-bit `int` product) of fresh,
    uninitialized storage;
  * `getNativeFlatArray(i, j, k)`   — returns
    `data[k + j*depth + i*depth*height]`;
  * `setNativeFlatArray(i, j, k,v)` — writes `v` to the same offset.

Embedding choices:
  * the global state is an explicit `TensorState` record threaded through
    the operations;
  * `jint` values are `Int` with every arithmetic operation of the C source
    wrapped to the signed 32-bit range by `wrap32` (C signed overflow is
    undefined; the wrap is the usual concretization, and theorems that need
    the arithmetic to be exact carry an explicit no-overflow hypothesis);
  * `int8_t` cells are `Int` values wrapped to the signed 8-bit range by
    `wrap8`;
  * the storage returned by `malloc` has unspecified contents, modelled by
    a parameter `junk : Nat → Int` supplied by the environment (the
    allocator); its length is the 32-bit product actually computed;
  * the unchecked memory accesses of `get`/`set` are undefined behavior
    when out of range; the total embedding returns `none` on that branch.
-/

/-- Wrap an integer to the signed 32-bit range `[-2^31, 2^31)`, the value a
C `int32_t`/`jint` computation produces. -/
def wrap32 (n : Int) : Int := (n + 2 ^ 31) % 2 ^ 32 - 2 ^ 31

/-- Wrap an integer to the signed 8-bit range `[-128, 128)`, the value an
`int8_t`/`jbyte` cell holds. -/
def wrap8 (n : Int) : Int := (n + 2 ^ 7) % 2 ^ 8 - 2 ^ 7

/-- The four globals of `TensorTest.c`: `int32_t width, height, depth` and
the malloc'd byte region `int8_t *data` (modelled by the list of cell
values). -/
structure TensorState where
  width : Int
  height : Int
  depth : Int
  data : List Int
deriving Repr, DecidableEq

/-- The linear offset `k + j * depth + i * depth * height` exactly as the C
source computes it: left-associated 32-bit `int` arithmetic. -/
def offset (height depth i j k : Int) : Int :=
  wrap32 (wrap32 (k + wrap32 (j * depth)) + wrap32 (wrap32 (i * depth) * height))

/-- The `malloc` argument `width * height * depth`: a left-associated
32-bit `int` product. -/
def mallocSize (w h d : Int) : Int := wrap32 (wrap32 (w * h) * d)

/-- `Java_..._initNativeFlatArray`: overwrite the extents, then point
`data` at a fresh allocation of `width * height * depth` bytes whose
contents `junk` are whatever the allocator left there.  The prior state is
discarded entirely (the old storage leaks). -/
def initNativeFlatArray (junk : Nat → Int) (w h d : Int) (_s : TensorState) :
    TensorState :=
  { width := w, height := h, depth := d,
    data := (List.range (mallocSize w h d).toNat).map fun t => wrap8 (junk t) }

/-- `Java_..._getNativeFlatArray`: read `data[k + j*depth + i*depth*height]`.
An access outside the allocation is undefined behavior in C; the total
embedding returns `none` there. -/
def getNativeFlatArray (s : TensorState) (i j k : Int) : Option Int :=
  if 0 ≤ offset s.height s.depth i j k then
    s.data[(offset s.height s.depth i j k).toNat]?
  else none

/-- `Java_..._setNativeFlatArray`: write `value` to
`data[k + j*depth + i*depth*height]`.  An access outside the allocation is
undefined behavior in C; the total embedding returns `none` there. -/
def setNativeFlatArray (s : TensorState) (i j k value : Int) :
    Option TensorState :=
  if 0 ≤ offset s.height s.depth i j k ∧
      (offset s.height s.depth i j k).toNat < s.data.length then
    some { s with
           data := s.data.set (offset s.height s.depth i j k).toNat (wrap8 value) }
  else none

/-- One invocation of the foreign-call interface, for reasoning about
reachable states. -/
inductive Op where
  | init (junk : Nat → Int) (w h d : Int)
  | get (i j k : Int)
  | set (i j k v : Int)

/-- State transition of one invocation.  `get` only reads; the undefined
out-of-range branch of `set` is modelled as leaving the state unchanged. -/
def applyOp (s : TensorState) : Op → TensorState
  | .init junk w h d => initNativeFlatArray junk w h d s
  | .get _ _ _ => s
  | .set i j k v => (setNativeFlatArray s i j k v).getD s

/-- Run a sequence of invocations. -/
def runOps (s : TensorState) : List Op → TensorState
  | [] => s
  | op :: ops => runOps (applyOp s op) ops

/-- The buffer invariant of the spec: the storage length is the (32-bit)
product `width * height * depth` of the current extents. -/
def Initialized (s : TensorState) : Prop :=
  s.data.length = (mallocSize s.width s.height s.depth).toNat

instance (s : TensorState) : Decidable (Initialized s) := by
  unfold Initialized; infer_instance

/-! ### Arithmetic helper lemmas -/

lemma wrap32_eq {n : Int} (h1 : -(2 ^ 31) ≤ n) (h2 : n < 2 ^ 31) :
    wrap32 n = n := by
  unfold wrap32
  have : (n + 2 ^ 31) % 2 ^ 32 = n + 2 ^ 31 :=
    Int.emod_eq_of_lt (by omega) (by omega)
  omega

lemma wrap8_eq {n : Int} (h1 : -128 ≤ n) (h2 : n < 128) : wrap8 n = n := by
  unfold wrap8
  have : (n + 2 ^ 7) % 2 ^ 8 = n + 2 ^ 7 := Int.emod_eq_of_lt (by omega) (by omega)
  omega

lemma offset_formula_bounds {w h d i j k : Int}
    (hi : 0 ≤ i) (hiw : i < w) (hj : 0 ≤ j) (hjh : j < h)
    (hk : 0 ≤ k) (hkd : k < d) :
    0 ≤ k + j * d + i * d * h ∧ k + j * d + i * d * h < w * h * d := by
  have hd0 : 0 < d := lt_of_le_of_lt hk hkd
  have hh0 : 0 < h := lt_of_le_of_lt hj hjh
  have l1 : 0 ≤ j * d := mul_nonneg hj hd0.le
  have l2 : 0 ≤ i * d * h := mul_nonneg (mul_nonneg hi hd0.le) hh0.le
  have u1 : j * d ≤ (h - 1) * d := mul_le_mul_of_nonneg_right (by omega) hd0.le
  have u2 : i * d ≤ (w - 1) * d := mul_le_mul_of_nonneg_right (by omega) hd0.le
  have u3 : i * d * h ≤ (w - 1) * d * h := mul_le_mul_of_nonneg_right u2 hh0.le
  have key : d - 1 + (h - 1) * d + (w - 1) * d * h = w * h * d - 1 := by ring
  constructor
  · linarith
  · linarith

lemma offset_eq {w h d i j k : Int}
    (hi : 0 ≤ i) (hiw : i < w) (hj : 0 ≤ j) (hjh : j < h)
    (hk : 0 ≤ k) (hkd : k < d) (hov : w * h * d < 2 ^ 31) :
    offset h d i j k = k + j * d + i * d * h := by
  have hd0 : 0 < d := lt_of_le_of_lt hk hkd
  have hh0 : 0 < h := lt_of_le_of_lt hj hjh
  obtain ⟨hlo, hhi⟩ := offset_formula_bounds hi hiw hj hjh hk hkd
  have l1 : 0 ≤ j * d := mul_nonneg hj hd0.le
  have l2 : 0 ≤ i * d := mul_nonneg hi hd0.le
  have l3 : 0 ≤ i * d * h := mul_nonneg l2 hh0.le
  have lid : i * d ≤ i * d * h := le_mul_of_one_le_right l2 (by omega)
  have w1 : wrap32 (j * d) = j * d := wrap32_eq (by linarith) (by linarith)
  have w2 : wrap32 (i * d) = i * d := wrap32_eq (by linarith) (by linarith)
  have w3 : wrap32 (i * d * h) = i * d * h := wrap32_eq (by linarith) (by linarith)
  have w4 : wrap32 (k + j * d) = k + j * d := wrap32_eq (by linarith) (by linarith)
  unfold offset
  rw [w1, w2, w4, w3]
  exact wrap32_eq (by linarith) (by linarith)

lemma digit_inj {b x y m n : Int} (hx : 0 ≤ x) (hxb : x < b)
    (hy : 0 ≤ y) (hyb : y < b) (e : x + b * m = y + b * n) : x = y ∧ m = n := by
  have hb : 0 < b := lt_of_le_of_lt hx hxb
  have ex : (x + b * m) % b = x := by
    rw [Int.add_mul_emod_self_left, Int.emod_eq_of_lt hx hxb]
  have ey : (y + b * n) % b = y := by
    rw [Int.add_mul_emod_self_left, Int.emod_eq_of_lt hy hyb]
  have hxy : x = y := by rw [← ex, ← ey, e]
  refine ⟨hxy, ?_⟩
  have hbm : b * m = b * n := by linarith
  exact mul_left_cancel₀ hb.ne' hbm

lemma addr_inj {h d i j k i' j' k' : Int}
    (hj : 0 ≤ j) (hjh : j < h) (hk : 0 ≤ k) (hkd : k < d)
    (hj' : 0 ≤ j') (hjh' : j' < h) (hk' : 0 ≤ k') (hkd' : k' < d)
    (e : k + j * d + i * d * h = k' + j' * d + i' * d * h) :
    i = i' ∧ j = j' ∧ k = k' := by
  have e2 : k + d * (j + h * i) = k' + d * (j' + h * i') := by linear_combination e
  obtain ⟨ek, em⟩ := digit_inj hk hkd hk' hkd' e2
  obtain ⟨ej, ei⟩ := digit_inj hj hjh hj' hjh' em
  exact ⟨ei, ej, ek⟩

lemma mallocSize_eq {w h d : Int} (hw : 0 ≤ w) (hh : 0 ≤ h) (hd : 0 ≤ d)
    (hov : w * h * d < 2 ^ 31) : mallocSize w h d = w * h * d := by
  unfold mallocSize
  rcases eq_or_lt_of_le hd with rfl | hd1
  · have : wrap32 (w * h) * 0 = 0 := by ring
    rw [this]
    have z : wrap32 0 = 0 := by decide
    have : w * h * 0 = 0 := by ring
    rw [this, z]
  · have hd1 : 1 ≤ d := hd1
    have hwh : 0 ≤ w * h := mul_nonneg hw hh
    have hle : w * h ≤ w * h * d := le_mul_of_one_le_right hwh hd1
    have w1 : wrap32 (w * h) = w * h := wrap32_eq (by linarith) (by linarith)
    rw [w1]
    have hprod : 0 ≤ w * h * d := mul_nonneg hwh hd
    exact wrap32_eq (by linarith) (by linarith)

lemma length_of_initialized {s : TensorState} (hinit : Initialized s)
    (hw : 0 ≤ s.width) (hh : 0 ≤ s.height) (hd : 0 ≤ s.depth)
    (hov : s.width * s.height * s.depth < 2 ^ 31) :
    (s.data.length : Int) = s.width * s.height * s.depth := by
  rw [hinit, mallocSize_eq hw hh hd hov]
  exact Int.toNat_of_nonneg (mul_nonneg (mul_nonneg hw hh) hd)

lemma get_eq_getElem {s : TensorState} {i j k : Int}
    (hi : 0 ≤ i) (hiw : i < s.width) (hj : 0 ≤ j) (hjh : j < s.height)
    (hk : 0 ≤ k) (hkd : k < s.depth)
    (hov : s.width * s.height * s.depth < 2 ^ 31) :
    getNativeFlatArray s i j k
      = s.data[(k + j * s.depth + i * s.depth * s.height).toNat]? := by
  have he := offset_eq hi hiw hj hjh hk hkd hov
  obtain ⟨hlo, _⟩ := offset_formula_bounds hi hiw hj hjh hk hkd
  unfold getNativeFlatArray
  rw [he, if_pos hlo]

lemma set_eq_some {s : TensorState} {i j k : Int} (v : Int)
    (hinit : Initialized s)
    (hi : 0 ≤ i) (hiw : i < s.width) (hj : 0 ≤ j) (hjh : j < s.height)
    (hk : 0 ≤ k) (hkd : k < s.depth)
    (hov : s.width * s.height * s.depth < 2 ^ 31) :
    setNativeFlatArray s i j k v
      = some { s with
               data := s.data.set
                 (k + j * s.depth + i * s.depth * s.height).toNat (wrap8 v) } := by
  have he := offset_eq hi hiw hj hjh hk hkd hov
  obtain ⟨hlo, hhi⟩ := offset_formula_bounds hi hiw hj hjh hk hkd
  have hlen := length_of_initialized hinit (by omega) (by omega) (by omega) hov
  have hltn : (k + j * s.depth + i * s.depth * s.height).toNat < s.data.length := by
    omega
  unfold setNativeFlatArray
  rw [he, if_pos ⟨hlo, hltn⟩]

lemma off_toNat_lt {s : TensorState} {i j k : Int}
    (hinit : Initialized s)
    (hi : 0 ≤ i) (hiw : i < s.width) (hj : 0 ≤ j) (hjh : j < s.height)
    (hk : 0 ≤ k) (hkd : k < s.depth)
    (hov : s.width * s.height * s.depth < 2 ^ 31) :
    (k + j * s.depth + i * s.depth * s.height).toNat < s.data.length := by
  obtain ⟨hlo, hhi⟩ := offset_formula_bounds hi hiw hj hjh hk hkd
  have hlen := length_of_initialized hinit (by omega) (by omega) (by omega) hov
  omega

/-- Concrete sample state used by the witness theorems: the buffer right
after `initNativeFlatArray(2, 3, 4)` with zeroed allocator contents. -/
def s234 : TensorState := initNativeFlatArray (fun _ => 0) 2 3 4 ⟨0, 0, 0, []⟩

example : wrap32 (2 ^ 31) = -(2 ^ 31) := by decide
example : offset 3 4 1 2 3 = 23 := by decide
example : mallocSize 2 3 4 = 24 := by decide
example : s234.data.length = 24 := by decide

/-! ### Claim theorems -/

/-- C1: for every state with extents `width`, `height`, `depth`, both
`get(i,j,k)` and `set(i,j,k,value)` address the storage element at linear
offset `k + j*depth + i*depth*height` (depth fastest-varying); in
particular with `width=2, height=3, depth=4` the coordinate `(1,2,3)` maps
to linear index `23`.  The bounds and no-overflow hypotheses keep the C
`int` arithmetic free of signed overflow (which would be undefined
behavior). -/
theorem get_set_use_row_major_offset (s : TensorState) (i j k v : Int)
    (hinit : Initialized s)
    (hi : 0 ≤ i) (hiw : i < s.width) (hj : 0 ≤ j) (hjh : j < s.height)
    (hk : 0 ≤ k) (hkd : k < s.depth)
    (hov : s.width * s.height * s.depth < 2 ^ 31) :
    offset s.height s.depth i j k = k + j * s.depth + i * s.depth * s.height
    ∧ getNativeFlatArray s i j k
        = s.data[(k + j * s.depth + i * s.depth * s.height).toNat]?
    ∧ setNativeFlatArray s i j k v
        = some { s with
                 data := s.data.set
                   (k + j * s.depth + i * s.depth * s.height).toNat (wrap8 v) }
    ∧ offset 3 4 1 2 3 = 23 :=
  ⟨offset_eq hi hiw hj hjh hk hkd hov,
   get_eq_getElem hi hiw hj hjh hk hkd hov,
   set_eq_some v hinit hi hiw hj hjh hk hkd hov,
   by decide⟩

/-- Witness for C1 at the spec's own example: extents `(2,3,4)`, coordinate
`(1,2,3)`, value `7`. -/
theorem get_set_use_row_major_offset_witness :
    offset s234.height s234.depth 1 2 3
        = 3 + 2 * s234.depth + 1 * s234.depth * s234.height
    ∧ getNativeFlatArray s234 1 2 3
        = s234.data[(3 + 2 * s234.depth + 1 * s234.depth * s234.height).toNat]?
    ∧ setNativeFlatArray s234 1 2 3 7
        = some { s234 with
                 data := s234.data.set
                   (3 + 2 * s234.depth + 1 * s234.depth * s234.height).toNat
                   (wrap8 7) }
    ∧ offset 3 4 1 2 3 = 23 :=
  get_set_use_row_major_offset s234 1 2 3 7 (by decide) (by decide) (by decide)
    (by decide) (by decide) (by decide) (by decide) (by decide)

/-- C2: on an initialized state, for every in-bounds coordinate and every
byte value `v`, `set(i,j,k,v)` followed by `get(i,j,k)` returns `v`. -/
theorem set_then_get_roundtrip (s : TensorState) (i j k v : Int)
    (hinit : Initialized s)
    (hi : 0 ≤ i) (hiw : i < s.width) (hj : 0 ≤ j) (hjh : j < s.height)
    (hk : 0 ≤ k) (hkd : k < s.depth)
    (hov : s.width * s.height * s.depth < 2 ^ 31)
    (hv1 : -128 ≤ v) (hv2 : v < 128) :
    (setNativeFlatArray s i j k v).bind (fun t => getNativeFlatArray t i j k)
      = some v := by
  have hn := off_toNat_lt hinit hi hiw hj hjh hk hkd hov
  rw [set_eq_some v hinit hi hiw hj hjh hk hkd hov, Option.some_bind']
  rw [get_eq_getElem
    (s := { s with
            data := s.data.set
              (k + j * s.depth + i * s.depth * s.height).toNat (wrap8 v) })
    hi hiw hj hjh hk hkd hov]
  show (s.data.set (k + j * s.depth + i * s.depth * s.height).toNat
          (wrap8 v))[(k + j * s.depth + i * s.depth * s.height).toNat]?
        = some v
  rw [List.getElem?_set_eq_of_lt (wrap8 v) hn, wrap8_eq hv1 hv2]

/-- Witness for C2: extents `(2,3,4)`, coordinate `(1,2,3)`, value `7`. -/
theorem set_then_get_roundtrip_witness :
    (setNativeFlatArray s234 1 2 3 7).bind
        (fun t => getNativeFlatArray t 1 2 3) = some 7 :=
  set_then_get_roundtrip s234 1 2 3 7 (by decide) (by decide) (by decide)
    (by decide) (by decide) (by decide) (by decide) (by decide) (by decide)
    (by decide)

/-- C5: for fixed extents, the addressing computation of `get`/`set` is
injective on the valid coordinate domain: distinct in-bounds coordinates
map to distinct linear offsets (with the extents small enough that the
32-bit `int` arithmetic does not overflow). -/
theorem offset_injective_on_valid_domain (w h d i j k i' j' k' : Int)
    (hi : 0 ≤ i) (hiw : i < w) (hj : 0 ≤ j) (hjh : j < h)
    (hk : 0 ≤ k) (hkd : k < d)
    (hi' : 0 ≤ i') (hiw' : i' < w) (hj' : 0 ≤ j') (hjh' : j' < h)
    (hk' : 0 ≤ k') (hkd' : k' < d)
    (hov : w * h * d < 2 ^ 31)
    (hne : ¬(i = i' ∧ j = j' ∧ k = k')) :
    offset h d i j k ≠ offset h d i' j' k' := by
  intro e
  rw [offset_eq hi hiw hj hjh hk hkd hov,
      offset_eq hi' hiw' hj' hjh' hk' hkd' hov] at e
  exact hne (addr_inj hj hjh hk hkd hj' hjh' hk' hkd' e)

/-- Witness for C5: in extents `(2,3,4)`, coordinates `(1,2,3)` and
`(0,1,2)` get different offsets. -/
theorem offset_injective_on_valid_domain_witness :
    offset 3 4 1 2 3 ≠ offset 3 4 0 1 2 :=
  offset_injective_on_valid_domain 2 3 4 1 2 3 0 1 2 (by decide) (by decide)
    (by decide) (by decide) (by decide) (by decide) (by decide) (by decide)
    (by decide) (by decide) (by decide) (by decide) (by decide) (by decide)

/-- C6: under the preconditions (buffer initialized with the current
extents, coordinate in bounds, no `int` overflow), the linear offset
computed by `get` and `set` satisfies `0 ≤ offset < width*height*depth`,
so the out-of-range (`none`) branch of the total embedding is unreachable
for both operations. -/
theorem in_bounds_access_succeeds (s : TensorState) (i j k v : Int)
    (hinit : Initialized s)
    (hi : 0 ≤ i) (hiw : i < s.width) (hj : 0 ≤ j) (hjh : j < s.height)
    (hk : 0 ≤ k) (hkd : k < s.depth)
    (hov : s.width * s.height * s.depth < 2 ^ 31) :
    0 ≤ offset s.height s.depth i j k
    ∧ offset s.height s.depth i j k < s.width * s.height * s.depth
    ∧ (getNativeFlatArray s i j k).isSome
    ∧ (setNativeFlatArray s i j k v).isSome := by
  have he := offset_eq hi hiw hj hjh hk hkd hov
  obtain ⟨hlo, hhi⟩ := offset_formula_bounds hi hiw hj hjh hk hkd
  have hn := off_toNat_lt hinit hi hiw hj hjh hk hkd hov
  refine ⟨by omega, by omega, ?_, ?_⟩
  · rw [get_eq_getElem hi hiw hj hjh hk hkd hov]
    simp [List.getElem?_eq_getElem hn]
  · rw [set_eq_some v hinit hi hiw hj hjh hk hkd hov]
    rfl

/-- Witness for C6: extents `(2,3,4)`, coordinate `(1,2,3)`. -/
theorem in_bounds_access_succeeds_witness :
    0 ≤ offset s234.height s234.depth 1 2 3
    ∧ offset s234.height s234.depth 1 2 3
        < s234.width * s234.height * s234.depth
    ∧ (getNativeFlatArray s234 1 2 3).isSome
    ∧ (setNativeFlatArray s234 1 2 3 9).isSome :=
  in_bounds_access_succeeds s234 1 2 3 9 (by decide) (by decide) (by decide)
    (by decide) (by decide) (by decide) (by decide) (by decide)

lemma initialized_init (junk : Nat → Int) (w h d : Int) (s : TensorState) :
    Initialized (initNativeFlatArray junk w h d s) := by
  show ((List.range (mallocSize w h d).toNat).map fun t => wrap8 (junk t)).length
        = (mallocSize w h d).toNat
  rw [List.length_map, List.length_range]

lemma initialized_set {s t : TensorState} {i j k v : Int}
    (hs : setNativeFlatArray s i j k v = some t) (h : Initialized s) :
    Initialized t := by
  unfold setNativeFlatArray at hs
  split at hs
  · cases hs
    show (s.data.set _ _).length = _
    rw [List.length_set]
    exact h
  · cases hs

lemma initialized_applyOp {s : TensorState} (op : Op) (h : Initialized s) :
    Initialized (applyOp s op) := by
  cases op with
  | init junk w hh d => exact initialized_init junk w hh d s
  | get i j k => exact h
  | set i j k v =>
    show Initialized ((setNativeFlatArray s i j k v).getD s)
    cases hs : setNativeFlatArray s i j k v with
    | none => exact h
    | some t => exact initialized_set hs h

lemma initialized_runOps (ops : List Op) {s : TensorState} (h : Initialized s) :
    Initialized (runOps s ops) := by
  induction ops generalizing s with
  | nil => exact h
  | cons op ops ih => exact ih (initialized_applyOp op h)

/-- C3: immediately after `initialize(w,h,d)` the storage length equals the
product `width * height * depth` (computed, as in the C, in 32-bit `int`
arithmetic — the hypotheses make that product overflow-free so it equals
the mathematical product), and the length invariant `Initialized` holds in
every state reachable by further interface calls. -/
theorem storage_length_invariant (junk : Nat → Int) (w h d : Int)
    (s : TensorState) (ops : List Op)
    (hw : 0 ≤ w) (hh : 0 ≤ h) (hd : 0 ≤ d) (hov : w * h * d < 2 ^ 31) :
    Initialized (runOps (initNativeFlatArray junk w h d s) ops)
    ∧ ((initNativeFlatArray junk w h d s).data.length : Int) = w * h * d := by
  refine ⟨initialized_runOps ops (initialized_init junk w h d s), ?_⟩
  show (((List.range (mallocSize w h d).toNat).map
          fun t => wrap8 (junk t)).length : Int) = w * h * d
  rw [List.length_map, List.length_range, mallocSize_eq hw hh hd hov]
  exact Int.toNat_of_nonneg (mul_nonneg (mul_nonneg hw hh) hd)

/-- Witness for C3: extents `(2,3,4)` and a short run of further calls. -/
theorem storage_length_invariant_witness :
    Initialized (runOps (initNativeFlatArray (fun _ => 0) 2 3 4 ⟨0, 0, 0, []⟩)
        [Op.set 0 1 2 5, Op.get 0 0 0])
    ∧ ((initNativeFlatArray (fun _ => 0) 2 3 4
          ⟨0, 0, 0, []⟩).data.length : Int) = 2 * 3 * 4 :=
  storage_length_invariant (fun _ => 0) 2 3 4 ⟨0, 0, 0, []⟩
    [Op.set 0 1 2 5, Op.get 0 0 0] (by decide) (by decide) (by decide)
    (by decide)

/-- C4: for every prior state, `initialize(w,h,d)` sets `width = w`,
`height = h`, `depth = d` and replaces the storage with a fresh allocation
of `w*h*d` bytes; in particular after `initialize(2,2,2)` then
`initialize(3,3,3)` the buffer has the new extents and 27 elements, not
the original 8. -/
theorem init_sets_extents_and_replaces_storage
    (junk junk1 junk2 : Nat → Int) (w h d : Int) (s s0 : TensorState)
    (hw : 0 ≤ w) (hh : 0 ≤ h) (hd : 0 ≤ d) (hov : w * h * d < 2 ^ 31) :
    (initNativeFlatArray junk w h d s).width = w
    ∧ (initNativeFlatArray junk w h d s).height = h
    ∧ (initNativeFlatArray junk w h d s).depth = d
    ∧ ((initNativeFlatArray junk w h d s).data.length : Int) = w * h * d
    ∧ (initNativeFlatArray junk2 3 3 3
        (initNativeFlatArray junk1 2 2 2 s0)).width = 3
    ∧ (initNativeFlatArray junk2 3 3 3
        (initNativeFlatArray junk1 2 2 2 s0)).height = 3
    ∧ (initNativeFlatArray junk2 3 3 3
        (initNativeFlatArray junk1 2 2 2 s0)).depth = 3
    ∧ (initNativeFlatArray junk2 3 3 3
        (initNativeFlatArray junk1 2 2 2 s0)).data.length = 27 := by
  refine ⟨rfl, rfl, rfl, ?_, rfl, rfl, rfl, ?_⟩
  · show (((List.range (mallocSize w h d).toNat).map
            fun t => wrap8 (junk t)).length : Int) = w * h * d
    rw [List.length_map, List.length_range, mallocSize_eq hw hh hd hov]
    exact Int.toNat_of_nonneg (mul_nonneg (mul_nonneg hw hh) hd)
  · show ((List.range (mallocSize 3 3 3).toNat).map
            fun t => wrap8 (junk2 t)).length = 27
    rw [List.length_map, List.length_range]
    decide

/-- Witness for C4 at extents `(2,3,4)`. -/
theorem init_sets_extents_and_replaces_storage_witness :
    (initNativeFlatArray (fun _ => 0) 2 3 4 ⟨0, 0, 0, []⟩).width = 2
    ∧ (initNativeFlatArray (fun _ => 0) 2 3 4 ⟨0, 0, 0, []⟩).height = 3
    ∧ (initNativeFlatArray (fun _ => 0) 2 3 4 ⟨0, 0, 0, []⟩).depth = 4
    ∧ ((initNativeFlatArray (fun _ => 0) 2 3 4
          ⟨0, 0, 0, []⟩).data.length : Int) = 2 * 3 * 4
    ∧ (initNativeFlatArray (fun _ => 2) 3 3 3
        (initNativeFlatArray (fun _ => 1) 2 2 2 ⟨0, 0, 0, []⟩)).width = 3
    ∧ (initNativeFlatArray (fun _ => 2) 3 3 3
        (initNativeFlatArray (fun _ => 1) 2 2 2 ⟨0, 0, 0, []⟩)).height = 3
    ∧ (initNativeFlatArray (fun _ => 2) 3 3 3
        (initNativeFlatArray (fun _ => 1) 2 2 2 ⟨0, 0, 0, []⟩)).depth = 3
    ∧ (initNativeFlatArray (fun _ => 2) 3 3 3
        (initNativeFlatArray (fun _ => 1) 2 2 2
          ⟨0, 0, 0, []⟩)).data.length = 27 :=
  init_sets_extents_and_replaces_storage (fun _ => 0) (fun _ => 1)
    (fun _ => 2) 2 3 4 ⟨0, 0, 0, []⟩ ⟨0, 0, 0, []⟩ (by decide) (by decide)
    (by decide) (by decide)

/-- C7: `initialize` performs no validation and never signals failure: for
every input triple — the non-negativity precondition is the caller's
responsibility and is not checked — it returns normally (the embedding is
a total function into `TensorState`, not into an error monad) and
unconditionally overwrites the extents with the given arguments. -/
theorem init_is_total_and_unvalidated (junk : Nat → Int) (w h d : Int)
    (s : TensorState) :
    (initNativeFlatArray junk w h d s).width = w
    ∧ (initNativeFlatArray junk w h d s).height = h
    ∧ (initNativeFlatArray junk w h d s).depth = d :=
  ⟨rfl, rfl, rfl⟩

/-- C8: `get` is observationally pure: invoking it leaves the entire state
— `width`, `height`, `depth` and every storage element — unchanged.  In
the embedding the state transition of a `get` invocation is literally the
identity, because `getNativeFlatArray` only reads. -/
theorem get_is_observationally_pure (s : TensorState) (i j k : Int) :
    applyOp s (Op.get i j k) = s
    ∧ (applyOp s (Op.get i j k)).width = s.width
    ∧ (applyOp s (Op.get i j k)).height = s.height
    ∧ (applyOp s (Op.get i j k)).depth = s.depth
    ∧ ∀ n : Nat, (applyOp s (Op.get i j k)).data[n]? = s.data[n]? :=
  ⟨rfl, rfl, rfl, rfl, fun _ => rfl⟩

/-- C9: `set` has a single-cell footprint: on an initialized state it
changes only the storage element at offset
`k + j*depth + i*depth*height`; the extents and every other storage
element are unchanged, so a subsequent `get` at any distinct in-bounds
coordinate returns the value it had before the `set`. -/
theorem set_single_cell_footprint (s t : TensorState) (i j k i' j' k' v : Int)
    (hinit : Initialized s)
    (hi : 0 ≤ i) (hiw : i < s.width) (hj : 0 ≤ j) (hjh : j < s.height)
    (hk : 0 ≤ k) (hkd : k < s.depth)
    (hi' : 0 ≤ i') (hiw' : i' < s.width) (hj' : 0 ≤ j') (hjh' : j' < s.height)
    (hk' : 0 ≤ k') (hkd' : k' < s.depth)
    (hov : s.width * s.height * s.depth < 2 ^ 31)
    (hne : ¬(i = i' ∧ j = j' ∧ k = k'))
    (hset : setNativeFlatArray s i j k v = some t) :
    t.width = s.width ∧ t.height = s.height ∧ t.depth = s.depth
    ∧ (∀ n : Nat,
        (n : Int) ≠ k + j * s.depth + i * s.depth * s.height →
        t.data[n]? = s.data[n]?)
    ∧ getNativeFlatArray t i' j' k' = getNativeFlatArray s i' j' k' := by
  rw [set_eq_some v hinit hi hiw hj hjh hk hkd hov] at hset
  injection hset with hset
  subst hset
  have hlo := (offset_formula_bounds hi hiw hj hjh hk hkd).1
  have hlo' := (offset_formula_bounds hi' hiw' hj' hjh' hk' hkd').1
  refine ⟨rfl, rfl, rfl, ?_, ?_⟩
  · intro n hn
    show (s.data.set (k + j * s.depth + i * s.depth * s.height).toNat
            (wrap8 v))[n]? = s.data[n]?
    exact List.getElem?_set_ne (by omega)
  · have hf : k + j * s.depth + i * s.depth * s.height
        ≠ k' + j' * s.depth + i' * s.depth * s.height := by
      intro e
      exact hne (addr_inj hj hjh hk hkd hj' hjh' hk' hkd' e)
    rw [get_eq_getElem
      (s := { s with
              data := s.data.set
                (k + j * s.depth + i * s.depth * s.height).toNat (wrap8 v) })
      hi' hiw' hj' hjh' hk' hkd' hov]
    rw [get_eq_getElem hi' hiw' hj' hjh' hk' hkd' hov]
    show (s.data.set (k + j * s.depth + i * s.depth * s.height).toNat
            (wrap8 v))[(k' + j' * s.depth + i' * s.depth * s.height).toNat]?
          = s.data[(k' + j' * s.depth + i' * s.depth * s.height).toNat]?
    exact List.getElem?_set_ne (by omega)

/-- The state after writing `7` at coordinate `(1,2,3)` of `s234`: the raw
cell at linear index `23` changes, nothing else. -/
def t234 : TensorState := { s234 with data := s234.data.set 23 (wrap8 7) }

/-- Witness for C9: extents `(2,3,4)`, `set` at `(1,2,3)`, observation at
`(0,1,2)`. -/
theorem set_single_cell_footprint_witness :
    t234.width = s234.width ∧ t234.height = s234.height
    ∧ t234.depth = s234.depth
    ∧ (∀ n : Nat,
        (n : Int) ≠ 3 + 2 * s234.depth + 1 * s234.depth * s234.height →
        t234.data[n]? = s234.data[n]?)
    ∧ getNativeFlatArray t234 0 1 2 = getNativeFlatArray s234 0 1 2 :=
  set_single_cell_footprint s234 t234 1 2 3 0 1 2 7 (by decide) (by decide)
    (by decide) (by decide) (by decide) (by decide) (by decide) (by decide)
    (by decide) (by decide) (by decide) (by decide) (by decide) (by decide)
    (by decide) (by decide)

/-- C10's counterexample: `initialize` is not a deterministic function of
its arguments and the prior state, because the fresh storage contents are
whatever the allocator left in the region.  Two runs of
`initialize(1,1,1)` from the same state, differing only in those
allocator-supplied contents, yield observably different buffers. -/
theorem init_not_deterministic :
    getNativeFlatArray
        (initNativeFlatArray (fun _ => 0) 1 1 1 ⟨0, 0, 0, []⟩) 0 0 0 = some 0
    ∧ getNativeFlatArray
        (initNativeFlatArray (fun _ => 1) 1 1 1 ⟨0, 0, 0, []⟩) 0 0 0 = some 1
    ∧ initNativeFlatArray (fun _ => 0) 1 1 1 ⟨0, 0, 0, []⟩
        ≠ initNativeFlatArray (fun _ => 1) 1 1 1 ⟨0, 0, 0, []⟩ := by
  refine ⟨by decide, by decide, by decide⟩

/-- C10 (amended): `get` and `set` are deterministic — from equal states
with equal arguments they return equal results and leave equal states —
and `initialize` deterministically sets the extents and the storage
length; only the fresh storage contents after `initialize` are
allocator-dependent. -/
theorem get_set_deterministic_init_extents_deterministic
    (s1 s2 : TensorState) (junk1 junk2 : Nat → Int) (w h d i j k v : Int)
    (hs : s1 = s2) :
    getNativeFlatArray s1 i j k = getNativeFlatArray s2 i j k
    ∧ setNativeFlatArray s1 i j k v = setNativeFlatArray s2 i j k v
    ∧ (initNativeFlatArray junk1 w h d s1).width
        = (initNativeFlatArray junk2 w h d s2).width
    ∧ (initNativeFlatArray junk1 w h d s1).height
        = (initNativeFlatArray junk2 w h d s2).height
    ∧ (initNativeFlatArray junk1 w h d s1).depth
        = (initNativeFlatArray junk2 w h d s2).depth
    ∧ (initNativeFlatArray junk1 w h d s1).data.length
        = (initNativeFlatArray junk2 w h d s2).data.length := by
  subst hs
  refine ⟨rfl, rfl, rfl, rfl, rfl, ?_⟩
  show ((List.range (mallocSize w h d).toNat).map
          fun t => wrap8 (junk1 t)).length
      = ((List.range (mallocSize w h d).toNat).map
          fun t => wrap8 (junk2 t)).length
  rw [List.length_map, List.length_map]

/-- Witness for the amended C10. -/
theorem get_set_deterministic_init_extents_deterministic_witness :
    getNativeFlatArray s234 1 2 3 = getNativeFlatArray s234 1 2 3
    ∧ setNativeFlatArray s234 1 2 3 7 = setNativeFlatArray s234 1 2 3 7
    ∧ (initNativeFlatArray (fun _ => 0) 2 3 4 s234).width
        = (initNativeFlatArray (fun _ => 1) 2 3 4 s234).width
    ∧ (initNativeFlatArray (fun _ => 0) 2 3 4 s234).height
        = (initNativeFlatArray (fun _ => 1) 2 3 4 s234).height
    ∧ (initNativeFlatArray (fun _ => 0) 2 3 4 s234).depth
        = (initNativeFlatArray (fun _ => 1) 2 3 4 s234).depth
    ∧ (initNativeFlatArray (fun _ => 0) 2 3 4 s234).data.length
        = (initNativeFlatArray (fun _ => 1) 2 3 4 s234).data.length :=
  get_set_deterministic_init_extents_deterministic s234 s234 (fun _ => 0)
    (fun _ => 1) 2 3 4 1 2 3 7 rfl
